import Mathlib

/-!
Shallow embedding of the lexical search engine in
`src/myapp/search/algorithms.py` (text normalizer, synonym expander,
BM25 corpus indexer, BM25 scorer and the ranker in `search_in_corpus`),
together with proofs of the specification's claims about it.

Python `str` is modelled by Lean `String`; the library primitives
`str.lower`, `str.split` (no argument: split on whitespace runs,
discarding empties) and `str.strip` are embedded as `pyLower`,
`pySplit` and `pyStrip`, working on the underlying character list.
Python `float` arithmetic is modelled by exact real arithmetic (`ℝ`);
Python `dict` counters are modelled as finitely supported functions.
-/

/-- Embedding of Python `str.lower` (per-character lowercasing). -/
def pyLower (s : String) : String :=
  String.mk (s.data.map Char.toLower)

/-- Auxiliary for `pySplit`: walks the character list with an accumulator
holding the (reversed) current word; whitespace flushes the accumulator. -/
def splitWsAux : List Char → List Char → List (List Char)
  | [], acc => if acc = [] then [] else [acc.reverse]
  | c :: cs, acc =>
      if c.isWhitespace then
        if acc = [] then splitWsAux cs []
        else acc.reverse :: splitWsAux cs []
      else splitWsAux cs (c :: acc)

/-- Embedding of Python `str.split()` with no argument: split on runs of
whitespace, never producing empty tokens. -/
def pySplit (s : String) : List String :=
  (splitWsAux s.data []).map String.mk

/-- Embedding of Python `str.strip()`: drop whitespace from both ends. -/
def pyStrip (s : String) : String :=
  String.mk (((s.data.dropWhile Char.isWhitespace).reverse.dropWhile
    Char.isWhitespace).reverse)

/-- The set `STOPWORDS` from `algorithms.py` (a Python set; membership only). -/
def STOPWORDS : List String :=
  ["the", "and", "for", "of", "to", "a", "an", "in", "on",
   "is", "it", "this", "that", "with", "at", "from", "by"]

/-- Python `word[:-n]` on a (non-negative-length) string. -/
def dropRightChars (l : List Char) (n : Nat) : List Char :=
  l.take (l.length - n)

/-- The function `simple_stem` from `algorithms.py`: the lightweight suffix-stripping
stemmer.  `word.endswith(suf)` is embedded as `List.isSuffixOf` on the
character lists, `word[:-n]` as `dropRightChars`. -/
def simple_stem (word : String) : String :=
  if word.length ≤ 3 then word
  else if "ies".data.isSuffixOf word.data then
    String.mk (dropRightChars word.data 3 ++ ['y'])
  else if "ing".data.isSuffixOf word.data then
    String.mk (dropRightChars word.data 3)
  else if "ed".data.isSuffixOf word.data then
    String.mk (dropRightChars word.data 2)
  else if "s".data.isSuffixOf word.data ∧ 4 < word.length then
    String.mk (dropRightChars word.data 1)
  else word

/-- The function `preprocess_text` from `algorithms.py`: lowercase, split on
whitespace, strip each token, drop empty tokens and stopwords, stem the
rest, preserving order. -/
def preprocess_text (text : String) : List String :=
  (pySplit (pyLower text)).filterMap (fun w =>
    let w := pyStrip w
    if w = "" ∨ STOPWORDS.contains w then none
    else some (simple_stem w))

/-- The table `SYNONYMS` from `algorithms.py`: the static synonym table
(a Python dict, insertion order as written). -/
def SYNONYMS : List (String × List String) :=
  [("cheap", ["affordable", "inexpensive", "low cost", "budget", "low-price"]),
   ("affordable", ["cheap", "budget"]),
   ("expensive", ["premium", "high-end", "luxury", "pricey"]),
   ("premium", ["luxury", "high-end", "expensive"]),
   ("comfortable", ["comfy", "soft", "relaxed"]),
   ("elegant", ["stylish", "classy", "refined"]),
   ("sport", ["sportswear", "athletic", "fitness"]),
   ("casual", ["everyday", "relaxed", "streetwear"]),
   ("formal", ["dressy", "smart", "office", "elegant"]),
   ("red", ["maroon", "crimson", "burgundy"]),
   ("blue", ["navy", "sky blue", "royal blue"]),
   ("green", ["olive", "mint", "emerald"]),
   ("black", ["dark", "charcoal"]),
   ("white", ["ivory", "cream"]),
   ("yellow", ["gold", "mustard"]),
   ("pink", ["rose", "blush"]),
   ("brown", ["tan", "beige", "camel"]),
   ("shoes", ["shoe", "sneakers", "footwear", "trainers", "running shoes"]),
   ("shoe", ["shoes", "sneaker", "footwear"]),
   ("sneakers", ["running shoes", "trainers", "sports shoes"]),
   ("boots", ["ankle boots", "combat boots", "boot"]),
   ("pants", ["trousers", "bottoms", "slacks"]),
   ("trousers", ["pants", "bottomwear"]),
   ("jeans", ["denim", "denims", "skinny jeans", "slim jeans"]),
   ("tshirt", ["t-shirt", "tee", "tees", "tshirts"]),
   ("t-shirt", ["tee", "tshirt", "shirt"]),
   ("shirt", ["top", "blouse"]),
   ("dress", ["gown", "one-piece", "maxi dress", "midi dress"]),
   ("jacket", ["coat", "outerwear", "blazer"]),
   ("bag", ["handbag", "purse", "tote"]),
   ("women", ["woman", "ladies", "female"]),
   ("men", ["man", "male", "mens"]),
   ("kids", ["children", "child", "boy", "girl"])]

/-- The query-expansion loop at the start of `search_in_corpus`:
starting from `query.lower()`, for every whitespace-separated word of the
original query whose lowercased form is a key of `SYNONYMS`, append a
space and the space-join of its synonym phrases. -/
def expandQuery (query : String) : String :=
  (pySplit query).foldl (fun eq w =>
    match SYNONYMS.lookup (pyLower w) with
    | some syns => eq ++ " " ++ String.intercalate " " syns
    | none => eq) (pyLower query)

-- Concrete checks of the embedding against the Python behaviour.
example : simple_stem "shoes" = "shoe" := by decide
example : simple_stem "parties" = "party" := by decide
example : simple_stem "running" = "runn" := by decide
example : simple_stem "played" = "play" := by decide
example : simple_stem "cats" = "cats" := by decide
example : simple_stem "bus" = "bus" := by decide
example : simple_stem "boxes" = "boxe" := by decide
example : preprocess_text "ited" = ["it"] := by decide
example : preprocess_text "The Blue  Shoes" = ["blue", "shoe"] := by decide
example : pySplit "  a bc  d " = ["a", "bc", "d"] := by decide
example : expandQuery "gown" = "gown" := by decide
example : expandQuery "RED gown" =
    "red gown maroon crimson burgundy" := by decide

/-- The `Document` record consumed by `algorithms.py` (defined in
`myapp/search/objects.py`): an identifier plus optional textual fields;
`none` models a Python `None` field (`doc.title or ""` defaults it). -/
structure Document where
  pid : String
  title : Option String
  description : Option String
  brand : Option String
  category : Option String
  sub_category : Option String
deriving DecidableEq

/-- Python `doc.field or ""`. -/
def orEmpty (s : Option String) : String := s.getD ""

/-- The module-level mutable BM25 index state of `algorithms.py`
(`_bm25_ready`, `_doc_ids`, `_doc_texts`, `_freqs`, `_doc_lengths`,
`_avgdl`).  A term-frequency dict is modelled as its lookup function
(`f t = 0` means `t not in f`, since every stored count is positive). -/
structure BM25State where
  ready : Bool
  doc_ids : List String
  doc_texts : List (List String)
  freqs : List (String → Nat)
  doc_lengths : List Nat
  avgdl : ℚ

/-- The initial values of the module-level globals. -/
def initialState : BM25State :=
  { ready := false, doc_ids := [], doc_texts := [], freqs := [],
    doc_lengths := [], avgdl := 0 }

/-- The constant `_k1 = 1.5` from `algorithms.py`. -/
def _k1 : ℝ := 1.5

/-- The constant `_b = 0.75` from `algorithms.py`. -/
def _b : ℝ := 0.75

/-- The frequency-counting loop of `_build_bm25_index`:
`freq[t] = freq.get(t, 0) + 1` over the token list. -/
def buildFreq (tokens : List String) : String → Nat :=
  tokens.foldl (fun f t => fun s => if s = t then f s + 1 else f s)
    (fun _ => 0)

/-- The per-document body of the indexing loop: join the five text
fields with spaces (`" ".join(map(str, text_parts))`) and normalize. -/
def docTokens (doc : Document) : List String :=
  preprocess_text (String.intercalate " "
    [orEmpty doc.title, orEmpty doc.description, orEmpty doc.brand,
     orEmpty doc.category, orEmpty doc.sub_category])

/-- The function `_build_bm25_index` from `algorithms.py`: memoized (if `ready`,
return the state unchanged); otherwise, for each document, tokenize it
(`docTokens`) and record ids, token lists, frequency tables and lengths;
finally `_avgdl = sum(_doc_lengths) / max(len(_doc_lengths), 1)`. -/
def _build_bm25_index (corpus : List (String × Document))
    (st : BM25State) : BM25State :=
  if st.ready then st
  else
    let entries := corpus.map (fun p => (p.1, docTokens p.2))
    { ready := true
      doc_ids := entries.map (fun e => e.1)
      doc_texts := entries.map (fun e => e.2)
      freqs := entries.map (fun e => buildFreq e.2)
      doc_lengths := entries.map (fun e => e.2.length)
      avgdl := ((entries.map (fun e => ((e.2.length : ℚ)))).sum) /
        ((max (entries.map (fun e => e.2.length)).length 1 : Nat) : ℚ) }

/-- The inverse document frequency expression of `_bm25_score`:
`math.log((N - n_qi + 0.5) / (n_qi + 0.5) + 1)`. -/
noncomputable def idfVal (N n_qi : Nat) : ℝ :=
  Real.log (((N : ℝ) - (n_qi : ℝ) + 0.5) / ((n_qi : ℝ) + 0.5) + 1)

/-- The function `_bm25_score` from `algorithms.py`: fold over the query terms,
skipping terms absent from the document's frequency table, otherwise
adding `idf * (f * (k1 + 1)) / (f + k1 * (1 - b + b * dl / avgdl))`. -/
noncomputable def _bm25_score (st : BM25State) (query_terms : List String)
    (index : Nat) : ℝ :=
  let freq := st.freqs.getD index (fun _ => 0)
  let dl := st.doc_lengths.getD index 0
  let N := st.doc_ids.length
  query_terms.foldl (fun score term =>
    if freq term = 0 then score
    else
      let f := freq term
      let n_qi := st.freqs.countP (fun d => d term != 0)
      let idf := idfVal N n_qi
      let denom := (f : ℝ) + _k1 * (1 - _b + _b * (dl : ℝ) / (st.avgdl : ℝ))
      score + idf * (((f : ℝ) * (_k1 + 1)) / denom)) 0

/-- A Result Record as assembled at the end of `search_in_corpus`
(the per-result dict). -/
structure ResultRecord where
  pid : String
  title : Option String
  description : Option String
  ranking : ℝ
  rank_position : Nat
  url : String

/-- The exact-title-match boost step of `search_in_corpus`:
`if any(t in title_words for t in query_terms): base_score *= 1.05`. -/
def boostScore (query_terms title_words : List String) (base : ℝ) : ℝ :=
  if query_terms.any (fun t => title_words.contains t) then base * 1.05
  else base

/-- The default `Document` used to model a Python dict lookup
(`corpus[doc_id]`; in every reachable call the key is present, because
the ids scored come from the index built from this very corpus). -/
def emptyDoc : Document :=
  { pid := "", title := none, description := none, brand := none,
    category := none, sub_category := none }

open Classical in
/-- The function `search_in_corpus` from `algorithms.py`: expand the query, normalize
it, build the index if not ready, score every indexed document, skip
scores `≤ 0`, apply the title boost, sort by score descending
(`scores.sort(reverse=True, key=lambda x: x[0])`), truncate to
`num_results` (default 20), and assemble 1-based-ranked Result Records. -/
noncomputable def search_in_corpus (query : String)
    (corpus : List (String × Document)) (search_id : Nat)
    (st : BM25State) (num_results : Nat := 20) : List ResultRecord :=
  let query_terms := preprocess_text (expandQuery query)
  let st := _build_bm25_index corpus st
  let scores := st.doc_ids.enum.filterMap (fun p =>
    let idx := p.1
    let doc_id := p.2
    let base_score := _bm25_score st query_terms idx
    if base_score ≤ 0 then none
    else
      let doc := (corpus.lookup doc_id).getD emptyDoc
      let title_words := preprocess_text (orEmpty doc.title)
      some (boostScore query_terms title_words base_score, doc_id))
  let sorted := scores.mergeSort (fun x y => decide (y.1 ≤ x.1))
  let top := sorted.take num_results
  (List.enumFrom 1 top).map (fun r =>
    let rank_pos := r.1
    let score := r.2.1
    let doc_id := r.2.2
    let doc := (corpus.lookup doc_id).getD emptyDoc
    { pid := doc.pid
      title := doc.title
      description := doc.description
      ranking := score
      rank_position := rank_pos
      url := "doc_details?pid=" ++ doc.pid ++ "&search_id=" ++
        toString search_id ++ "&rank=" ++ toString rank_pos })

/-- The BM25 score exactly as §4.4 of the spec words it: the sum, over
the query terms `t` present in the document's term-frequency mapping
with frequency `f`, of
`idf(t) × (f × (k1 + 1)) / (f + k1 × (1 − b + b × dl/avgdl))` with
`k1 = 1.5`, `b = 0.75`, `N` the number of indexed documents, `df(t)`
the number of indexed documents containing `t` at least once, `dl` the
document's token count and `avgdl` the average token count; absent terms
contribute 0. -/
noncomputable def bm25SpecScore (st : BM25State) (query_terms : List String)
    (index : Nat) : ℝ :=
  let freq := st.freqs.getD index (fun _ => 0)
  let dl := st.doc_lengths.getD index 0
  let N := st.doc_ids.length
  (query_terms.map (fun t =>
    if freq t = 0 then 0
    else
      let f := freq t
      let df := st.freqs.countP (fun d => d t != 0)
      idfVal N df *
        (((f : ℝ) * ((1.5 : ℝ) + 1)) /
          ((f : ℝ) +
            (1.5 : ℝ) * (1 - (0.75 : ℝ) +
              (0.75 : ℝ) * (dl : ℝ) / (st.avgdl : ℝ)))))).sum

/-- A concrete document used by several witnesses. -/
def gownDoc : Document :=
  { pid := "P1", title := some "Gown", description := none, brand := none,
    category := none, sub_category := none }


def gownCorpus : List (String × Document) := [("P1", gownDoc)]

noncomputable def gownBase : ℝ :=
  _bm25_score (_build_bm25_index gownCorpus initialState) ["gown"] 0

noncomputable def gownRec : ResultRecord :=
  { pid := "P1", title := some "Gown", description := none,
    ranking := gownBase * 1.05, rank_position := 1,
    url := "doc_details?pid=P1&search_id=7&rank=1" }

/-- A document whose only text is a stopword: it indexes to zero
tokens. -/
def stopDoc : Document :=
  { pid := "S1", title := some "the", description := none, brand := none,
    category := none, sub_category := none }

/-- A one-document corpus whose average document length is 0. -/
def stopCorpus : List (String × Document) := [("S1", stopDoc)]


/-- A fold that adds a contribution for every list element not skipped
equals the starting value plus the sum of the (skippable) contributions. -/
lemma foldl_skip_add_eq_sum (c : String → Prop) [DecidablePred c]
    (g : String → ℝ) :
    ∀ (q : List String) (a : ℝ),
      q.foldl (fun s t => if c t then s else s + g t) a =
        a + (q.map (fun t => if c t then 0 else g t)).sum := by
  intro q
  induction q with
  | nil => intro a; simp
  | cons t q ih =>
      intro a
      by_cases h : c t
      · simp only [List.foldl_cons, if_pos h, List.map_cons, List.sum_cons,
          ih, zero_add]
      · simp only [List.foldl_cons, if_neg h, List.map_cons, List.sum_cons,
          ih]
        ring

/-- The idf expression of the scorer is strictly positive whenever the
document frequency does not exceed the document count. -/
lemma idfVal_pos {N n_qi : Nat} (h : n_qi ≤ N) : 0 < idfVal N n_qi := by
  unfold idfVal
  apply Real.log_pos
  have h1 : (0 : ℝ) < (n_qi : ℝ) + 0.5 := by positivity
  have h2 : (0 : ℝ) < (N : ℝ) - (n_qi : ℝ) + 0.5 := by
    have : (n_qi : ℝ) ≤ (N : ℝ) := by exact_mod_cast h
    linarith
  have h3 : 0 < ((N : ℝ) - (n_qi : ℝ) + 0.5) / ((n_qi : ℝ) + 0.5) :=
    div_pos h2 h1
  linarith

/-- Claim C3 (counterexample): the stemmer maps `"cats"` to `"cats"`,
not `"cat"` (the trailing-`s` rule requires length strictly greater
than 4), and `"boxes" → "boxe"` IS produced. -/
theorem claim_stemmer_examples_cex :
    simple_stem "cats" = "cats" ∧ simple_stem "cats" ≠ "cat" ∧
      simple_stem "boxes" = "boxe" := by
  refine ⟨by decide, by decide, by decide⟩

/-- Claim C3 (amended): the stemmer maps `"shoes" → "shoe"`,
`"parties" → "party"`, `"running" → "runn"`, `"played" → "play"`,
`"bus" → "bus"`, leaves `"cats"` unchanged (length 4 is not > 4), and
produces `"boxes" → "boxe"`. -/
theorem claim_stemmer_examples_amended :
    simple_stem "shoes" = "shoe" ∧ simple_stem "parties" = "party" ∧
      simple_stem "running" = "runn" ∧ simple_stem "played" = "play" ∧
      simple_stem "bus" = "bus" ∧ simple_stem "cats" = "cats" ∧
      simple_stem "boxes" = "boxe" := by
  refine ⟨by decide, by decide, by decide, by decide, by decide, by decide,
    by decide⟩

/-- Claim C4 (counterexample): there is no document count `N` and
document frequency `df ≤ N` for which the idf value computed by the
scorer is negative — the `+ 1` inside the logarithm keeps the argument
strictly above 1. -/
theorem claim_idf_negative_cex :
    ¬ ∃ N n_qi : Nat, n_qi ≤ N ∧ idfVal N n_qi < 0 := by
  rintro ⟨N, n_qi, hle, hneg⟩
  exact absurd (idfVal_pos hle) (by linarith)

/-- Claim C4 (amended): for every document count `N` and document
frequency `df(t) ≤ N`, the value `idf(t) = ln((N − df + 0.5)/(df + 0.5)
+ 1)` computed by the scorer is strictly positive (never negative); it
is used by the scorer as-is, without clamping. -/
theorem claim_idf_positive_amended (N n_qi : Nat) (h : n_qi ≤ N) :
    0 < idfVal N n_qi :=
  idfVal_pos h

/-- Witness for the amended Claim C4 at `N = 3`, `df = 1`. -/
theorem claim_idf_positive_amended_witness :
    1 ≤ 3 ∧ 0 < idfVal 3 1 :=
  ⟨by decide, claim_idf_positive_amended 3 1 (by decide)⟩

/-- The index build always leaves the state marked ready. -/
lemma build_ready (corpus : List (String × Document)) (st : BM25State) :
    (_build_bm25_index corpus st).ready = true := by
  unfold _build_bm25_index
  by_cases h : st.ready
  · rw [if_pos h]; exact h
  · rw [if_neg h]

/-- Claim C9: once the state is built (`ready`), building again with any
corpus — changed or not — returns the state unchanged (every field); in
particular building twice with the same corpus gives the same state, so
the Corpus Statistics coincide. -/
theorem claim_build_idempotent :
    (∀ (st : BM25State) (corpus : List (String × Document)),
      st.ready = true → _build_bm25_index corpus st = st) ∧
    (∀ (c₁ c₂ : List (String × Document)) (st : BM25State),
      _build_bm25_index c₂ (_build_bm25_index c₁ st) =
        _build_bm25_index c₁ st) := by
  constructor
  · intro st corpus h
    unfold _build_bm25_index
    rw [if_pos h]
  · intro c₁ c₂ st
    conv_lhs => rw [_build_bm25_index]
    rw [if_pos (build_ready c₁ st)]

/-- Witness for Claim C9: re-building on an already-ready state is the
identity, at a concrete ready state and corpus. -/
theorem claim_build_idempotent_witness :
    _build_bm25_index [] { initialState with ready := true } =
      { initialState with ready := true } :=
  claim_build_idempotent.1 { initialState with ready := true } [] rfl

/-- Claim C7: with a positive base score, the title boost multiplies the
score by exactly 1.05 — applied once, however many query terms occur in
the normalized title — and strictly increases it; with no query term in
the normalized title the score is returned unchanged. -/
theorem claim_title_boost (query_terms : List String) (doc : Document)
    (base : ℝ) (hpos : 0 < base) :
    ((∃ t ∈ query_terms, t ∈ preprocess_text (orEmpty doc.title)) →
      boostScore query_terms (preprocess_text (orEmpty doc.title)) base =
          base * 1.05 ∧
        base <
          boostScore query_terms (preprocess_text (orEmpty doc.title))
            base) ∧
    ((¬ ∃ t ∈ query_terms, t ∈ preprocess_text (orEmpty doc.title)) →
      boostScore query_terms (preprocess_text (orEmpty doc.title)) base =
        base) := by
  have hiff : (query_terms.any
        (fun t => (preprocess_text (orEmpty doc.title)).contains t)
          = true) ↔
      ∃ t ∈ query_terms, t ∈ preprocess_text (orEmpty doc.title) := by
    simp [List.any_eq_true]
  constructor
  · intro hmatch
    have hb : boostScore query_terms (preprocess_text (orEmpty doc.title))
        base = base * 1.05 := by
      unfold boostScore
      rw [if_pos (hiff.mpr hmatch)]
    refine ⟨hb, ?_⟩
    rw [hb]
    have h105 : (1 : ℝ) < 1.05 := by norm_num
    calc base = base * 1 := by ring
    _ < base * 1.05 := by
        exact mul_lt_mul_of_pos_left h105 hpos
  · intro hno
    unfold boostScore
    rw [if_neg (fun hc => hno (hiff.mp hc))]

/-- Witness for Claim C7 at `query_terms = ["gown"]`, the document
titled `"Gown"`, and base score 1. -/
theorem claim_title_boost_witness :
    boostScore ["gown"] (preprocess_text (orEmpty gownDoc.title)) 1 =
        1 * 1.05 ∧
      (1 : ℝ) <
        boostScore ["gown"] (preprocess_text (orEmpty gownDoc.title)) 1 :=
  (claim_title_boost ["gown"] gownDoc 1 (by norm_num)).1
    ⟨"gown", by decide, by decide⟩

/-- Claim C1: for every index state, query term sequence and document
index, the score computed by `_bm25_score` equals the spec's
sum-of-contributions formula with `k1 = 1.5` and `b = 0.75`. -/
theorem claim_bm25_score_matches_spec (st : BM25State)
    (query_terms : List String) (index : Nat) :
    _bm25_score st query_terms index = bm25SpecScore st query_terms index := by
  unfold _bm25_score bm25SpecScore
  rw [foldl_skip_add_eq_sum
    (fun t => (st.freqs.getD index (fun _ => 0)) t = 0)
    (fun t =>
      idfVal st.doc_ids.length (st.freqs.countP (fun d => d t != 0)) *
        ((((st.freqs.getD index (fun _ => 0)) t : ℝ) * (_k1 + 1)) /
          (((st.freqs.getD index (fun _ => 0)) t : ℝ) +
            _k1 * (1 - _b +
              _b * (st.doc_lengths.getD index 0 : ℝ) / (st.avgdl : ℝ)))))]
  rw [zero_add]
  congr 1

/-- Every token produced by the whitespace splitter is nonempty and
contains no whitespace character. -/
lemma splitWsAux_tokens :
    ∀ (cs acc : List Char), (∀ c ∈ acc, c.isWhitespace = false) →
      ∀ l ∈ splitWsAux cs acc,
        l ≠ [] ∧ ∀ c ∈ l, c.isWhitespace = false := by
  intro cs
  induction cs with
  | nil =>
      intro acc hacc l hl
      unfold splitWsAux at hl
      by_cases h : acc = []
      · rw [if_pos h] at hl
        exact absurd hl (List.not_mem_nil l)
      · rw [if_neg h] at hl
        rcases List.mem_singleton.mp hl with rfl
        refine ⟨fun hrev => h (by simpa using hrev), ?_⟩
        intro c hc
        exact hacc c (List.mem_reverse.mp hc)
  | cons d cs ih =>
      intro acc hacc l hl
      unfold splitWsAux at hl
      by_cases hws : d.isWhitespace
      · rw [if_pos hws] at hl
        by_cases h : acc = []
        · rw [if_pos h] at hl
          exact ih [] (by simp) l hl
        · rw [if_neg h] at hl
          rcases List.mem_cons.mp hl with rfl | hl'
          · refine ⟨fun hrev => h (by simpa using hrev), ?_⟩
            intro c hc
            exact hacc c (List.mem_reverse.mp hc)
          · exact ih [] (by simp) l hl'
      · rw [if_neg hws] at hl
        refine ih (d :: acc) ?_ l hl
        intro c hc
        rcases List.mem_cons.mp hc with rfl | hc'
        · exact Bool.eq_false_iff.mpr hws
        · exact hacc c hc'

/-- Function `dropWhile` is the identity on a list none of whose elements satisfy
the predicate. -/
lemma dropWhile_eq_self_of_none {p : Char → Bool} :
    ∀ (l : List Char), (∀ c ∈ l, p c = false) → l.dropWhile p = l := by
  intro l h
  cases l with
  | nil => rfl
  | cons c cs =>
      rw [List.dropWhile_cons, h c (List.mem_cons_self c cs)]
      simp

/-- Stripping is the identity on a whitespace-free string. -/
lemma pyStrip_eq_self {l : List Char}
    (h : ∀ c ∈ l, c.isWhitespace = false) :
    pyStrip (String.mk l) = String.mk l := by
  unfold pyStrip
  congr 1
  rw [dropWhile_eq_self_of_none l h,
    dropWhile_eq_self_of_none l.reverse
      (fun c hc => h c (List.mem_reverse.mp hc)),
    List.reverse_reverse]

/-- A token coming out of `pySplit` is nonempty and strip-invariant. -/
lemma pySplit_tokens {s : String} {w : String} (hw : w ∈ pySplit s) :
    pyStrip w = w ∧ w ≠ "" := by
  unfold pySplit at hw
  rcases List.mem_map.mp hw with ⟨l, hl, rfl⟩
  obtain ⟨hne, hnws⟩ := splitWsAux_tokens s.data [] (by simp) l hl
  refine ⟨pyStrip_eq_self hnws, fun hmk => hne ?_⟩
  have := congrArg String.data hmk
  simpa using this

/-- A `filterMap` with an if-skip is `map` after `filter`. -/
lemma filterMap_if_eq_map_filter (p : String → Bool) (g : String → String) :
    ∀ l : List String,
      l.filterMap (fun w => if p w then none else some (g w)) =
        (l.filter (fun w => !(p w))).map g := by
  intro l
  induction l with
  | nil => rfl
  | cons w l ih =>
      by_cases h : p w <;>
        simp [List.filterMap_cons, List.filter_cons, h, ih]

/-- The token filter of `preprocess_text`, on strip-invariant nonempty
tokens, keeps exactly the non-stopwords and stems them. -/
lemma filterMap_tokens_eq (l : List String)
    (h : ∀ w ∈ l, pyStrip w = w ∧ w ≠ "") :
    (l.filterMap (fun w =>
      let w := pyStrip w
      if w = "" ∨ STOPWORDS.contains w then none
      else some (simple_stem w))) =
    (l.filter (fun w => !(STOPWORDS.contains w))).map simple_stem := by
  rw [← filterMap_if_eq_map_filter (fun w => STOPWORDS.contains w)
    simple_stem l]
  apply List.filterMap_congr
  intro w hw
  obtain ⟨hstrip, hne⟩ := h w hw
  simp only [hstrip]
  by_cases hstop : STOPWORDS.contains w
  · rw [if_pos (Or.inr hstop), if_pos hstop]
  · rw [if_neg ?_, if_neg hstop]
    rintro (h1 | h2)
    · exact hne h1
    · exact hstop h2

/-- Claim C10: normalization filters stopwords on the raw lowercased
word, before stemming — `preprocess_text` equals "keep the split,
lowercased words not in the stopword list, then stem" — so a token whose
stemmed form is a stopword survives: `preprocess_text "ited" = ["it"]`
although `"it"` is a stopword. -/
theorem claim_stopwords_before_stemming :
    (∀ text : String,
      preprocess_text text =
        ((pySplit (pyLower text)).filter
          (fun w => !(STOPWORDS.contains w))).map simple_stem) ∧
    preprocess_text "ited" = ["it"] ∧ "it" ∈ STOPWORDS := by
  refine ⟨?_, by decide, by decide⟩
  intro text
  unfold preprocess_text
  exact filterMap_tokens_eq (pySplit (pyLower text))
    (fun w hw => pySplit_tokens hw)

/-- Equation lemma for `splitWsAux` on the empty list. -/
lemma splitWsAux_nil (acc : List Char) :
    splitWsAux [] acc = if acc = [] then [] else [acc.reverse] := rfl

/-- Equation lemma for `splitWsAux` on a cons. -/
lemma splitWsAux_cons (c : Char) (cs acc : List Char) :
    splitWsAux (c :: cs) acc =
      if c.isWhitespace then
        if acc = [] then splitWsAux cs []
        else acc.reverse :: splitWsAux cs []
      else splitWsAux cs (c :: acc) := rfl

/-- Splitting is unchanged by one trailing whitespace character. -/
lemma splitWsAux_append_ws {w : Char} (hw : w.isWhitespace = true) :
    ∀ (xs acc : List Char),
      splitWsAux (xs ++ [w]) acc = splitWsAux xs acc := by
  intro xs
  induction xs with
  | nil =>
      intro acc
      rw [List.nil_append, splitWsAux_cons, if_pos hw, splitWsAux_nil,
        splitWsAux_nil]
      by_cases h : acc = []
      · rw [if_pos h, if_pos h, if_pos rfl]
      · rw [if_neg h, if_neg h, if_pos rfl]
  | cons c cs ih =>
      intro acc
      rw [List.cons_append, splitWsAux_cons, splitWsAux_cons]
      by_cases hc : c.isWhitespace
      · rw [if_pos hc, if_pos hc]
        by_cases h : acc = []
        · rw [if_pos h, if_pos h, ih]
        · rw [if_neg h, if_neg h, ih]
      · rw [if_neg hc, if_neg hc, ih]

/-- Splitting distributes over a whitespace character in the middle. -/
lemma splitWsAux_append_ws_cons {w : Char} (hw : w.isWhitespace = true) :
    ∀ (xs ys acc : List Char),
      splitWsAux (xs ++ w :: ys) acc =
        splitWsAux xs acc ++ splitWsAux ys [] := by
  intro xs
  induction xs with
  | nil =>
      intro ys acc
      rw [List.nil_append, splitWsAux_cons, if_pos hw, splitWsAux_nil]
      by_cases h : acc = []
      · rw [if_pos h, if_pos h, List.nil_append]
      · rw [if_neg h, if_neg h, List.singleton_append]
  | cons c cs ih =>
      intro ys acc
      rw [List.cons_append, splitWsAux_cons, splitWsAux_cons]
      by_cases hc : c.isWhitespace
      · rw [if_pos hc, if_pos hc]
        by_cases h : acc = []
        · rw [if_pos h, if_pos h, ih]
        · rw [if_neg h, if_neg h, ih, List.cons_append]
      · rw [if_neg hc, if_neg hc, ih]

/-- Normalization via `preprocess_text` distributes over appending a string that begins
with a space (and is unchanged by appending the empty string). -/
lemma preprocess_append {x s : String}
    (hs : s.data = [] ∨ ∃ t, s.data = ' ' :: t) :
    preprocess_text (x ++ s) = preprocess_text x ++ preprocess_text s := by
  obtain ⟨d⟩ := s
  rcases hs with h0 | ⟨t, ht⟩
  · have hd : d = [] := h0
    subst hd
    have he : preprocess_text (String.mk []) = [] := rfl
    have hxe : x ++ String.mk [] = x := by
      show x ++ "" = x
      exact String.append_empty x
    rw [hxe, he, List.append_nil]
  · have hd : d = ' ' :: t := ht
    subst hd
    unfold preprocess_text pySplit pyLower
    rw [String.data_append]
    simp only [List.map_append, List.map_cons]
    have hto : Char.toLower ' ' = ' ' := by decide
    rw [hto]
    rw [splitWsAux_append_ws_cons (by decide : (' ' : Char).isWhitespace = true)
      (x.data.map Char.toLower) (t.map Char.toLower) []]
    rw [splitWsAux_cons,
      if_pos (by decide : (' ' : Char).isWhitespace = true), if_pos rfl]
    rw [List.map_append, List.filterMap_append]

/-- Lowercasing a character twice equals lowercasing it once. -/
lemma toLower_toLower (c : Char) : Char.toLower (Char.toLower c) =
    Char.toLower c := by
  simp only [Char.toLower]
  by_cases h : c.toNat ≥ 65 ∧ c.toNat ≤ 90
  · rw [if_pos h]
    have hv : (c.toNat + 32).isValidChar := Or.inl (by omega)
    have ht : (Char.ofNat (c.toNat + 32)).toNat = c.toNat + 32 := by
      simp only [Char.ofNat, hv, dif_pos]
      rfl
    rw [ht, if_neg (by omega)]
  · rw [if_neg h, if_neg h]

/-- Lowercasing is idempotent, so `preprocess_text` is unchanged by a
prior `pyLower`. -/
lemma preprocess_pyLower (q : String) :
    preprocess_text (pyLower q) = preprocess_text q := by
  unfold preprocess_text
  congr 2
  unfold pyLower
  congr 1
  simp only [List.map_map]
  exact List.map_congr_left (fun c _ => toLower_toLower c)

/-- The synonym-expansion fold only ever appends: its result is the
start string followed by a (possibly empty) space-led suffix. -/
lemma expand_fold_appends :
    ∀ (ws : List String) (init : String),
      ∃ s : String,
        ws.foldl (fun eq w =>
          match SYNONYMS.lookup (pyLower w) with
          | some syns => eq ++ " " ++ String.intercalate " " syns
          | none => eq) init = init ++ s ∧
        (s.data = [] ∨ ∃ t, s.data = ' ' :: t) := by
  intro ws
  induction ws with
  | nil =>
      intro init
      exact ⟨"", by simp, Or.inl rfl⟩
  | cons w ws ih =>
      intro init
      cases hlk : SYNONYMS.lookup (pyLower w) with
      | none =>
          obtain ⟨s, hs, hsp⟩ := ih init
          refine ⟨s, ?_, hsp⟩
          simp only [List.foldl_cons, hlk]
          exact hs
      | some syns =>
          obtain ⟨s, hs, _⟩ := ih (init ++ " " ++ String.intercalate " " syns)
          refine ⟨" " ++ String.intercalate " " syns ++ s, ?_, Or.inr ?_⟩
          · simp only [List.foldl_cons, hlk]
            rw [hs]
            simp [String.append_assoc]
          · refine ⟨(String.intercalate " " syns).data ++ s.data, ?_⟩
            rw [String.data_append, String.data_append]
            rfl

/-- Claim C8: for a query composed solely of synonym-table keys, the
Query Term Set of the synonym-expanded query is a multiset superset of
the Query Term Set of the unexpanded query — expansion only appends
synonym phrases after the lowercased original query. -/
theorem claim_synonym_monotonic (query : String)
    (hkeys : ∀ w ∈ pySplit query, (SYNONYMS.lookup (pyLower w)).isSome) :
    (preprocess_text query : Multiset String) ≤
      (preprocess_text (expandQuery query) : Multiset String) := by
  obtain ⟨s, hs, hsp⟩ := expand_fold_appends (pySplit query) (pyLower query)
  unfold expandQuery
  rw [hs, preprocess_append hsp, preprocess_pyLower]
  rw [← Multiset.coe_add]
  exact le_add_right le_rfl

/-- Witness for Claim C8 at the all-keys query `"cheap shoes"`. -/
theorem claim_synonym_monotonic_witness :
    (preprocess_text "cheap shoes" : Multiset String) ≤
      (preprocess_text (expandQuery "cheap shoes") : Multiset String) :=
  claim_synonym_monotonic "cheap shoes" (by decide)

/-- Pairwise relations on a list transfer to its enumeration. -/
lemma pairwise_enumFrom {α : Type} {R : α → α → Prop} :
    ∀ (l : List α) (n : Nat), l.Pairwise R →
      (List.enumFrom n l).Pairwise (fun p q => R p.2 q.2) := by
  intro l
  induction l with
  | nil => intro n _; exact List.Pairwise.nil
  | cons a l ih =>
      intro n h
      rcases List.pairwise_cons.mp h with ⟨ha, hl⟩
      refine List.pairwise_cons.mpr ⟨?_, ih (n + 1) hl⟩
      intro p hp
      have : p.2 ∈ (List.enumFrom (n + 1) l).map Prod.snd :=
        List.mem_map_of_mem Prod.snd hp
      rw [List.enumFrom_map_snd] at this
      exact ha p.2 this

/-- The comparator used by the ranker's sort is transitive. -/
lemma sortLe_trans (x y z : ℝ × String)
    (h1 : decide (y.1 ≤ x.1) = true) (h2 : decide (z.1 ≤ y.1) = true) :
    decide (z.1 ≤ x.1) = true := by
  rw [decide_eq_true_eq] at *
  exact le_trans h2 h1

/-- The comparator used by the ranker's sort is total. -/
lemma sortLe_total (x y : ℝ × String) :
    (decide (y.1 ≤ x.1) || decide (x.1 ≤ y.1)) = true := by
  rcases le_total y.1 x.1 with h | h <;> simp [h]

/-- Claim C6: for every query, corpus, state and limit `n`, the search
result list is sorted by descending score (every adjacent pair satisfies
`score[i] ≥ score[i+1]`), has length at most `n`, and `n` defaults
to 20. -/
theorem claim_results_sorted_truncated (query : String)
    (corpus : List (String × Document)) (search_id : Nat)
    (st : BM25State) (n : Nat) :
    (search_in_corpus query corpus search_id st n).Pairwise
        (fun r₁ r₂ => r₂.ranking ≤ r₁.ranking) ∧
      (search_in_corpus query corpus search_id st n).length ≤ n ∧
      search_in_corpus query corpus search_id st =
        search_in_corpus query corpus search_id st 20 := by
  refine ⟨?_, ?_, rfl⟩
  · show (search_in_corpus query corpus search_id st n).Pairwise _
    unfold search_in_corpus
    rw [List.pairwise_map]
    show (List.enumFrom 1 _).Pairwise
      (fun p q : Nat × (ℝ × String) => q.2.1 ≤ p.2.1)
    apply @pairwise_enumFrom (ℝ × String) (fun x y => y.1 ≤ x.1)
    apply List.Pairwise.sublist (List.take_sublist n _)
    have hsorted := @List.sorted_mergeSort (ℝ × String)
      (fun x y => decide (y.1 ≤ x.1)) sortLe_trans sortLe_total
    have := hsorted (((_build_bm25_index corpus st).doc_ids.enum).filterMap
      (fun p =>
        let idx := p.1
        let doc_id := p.2
        let base_score := _bm25_score (_build_bm25_index corpus st)
          (preprocess_text (expandQuery query)) idx
        if base_score ≤ 0 then none
        else
          let doc := (corpus.lookup doc_id).getD emptyDoc
          let title_words := preprocess_text (orEmpty doc.title)
          some (boostScore (preprocess_text (expandQuery query))
            title_words base_score, doc_id)))
    refine List.Pairwise.imp ?_ this
    intro a b hab
    exact decide_eq_true_eq.mp hab
  · show (search_in_corpus query corpus search_id st n).length ≤ n
    unfold search_in_corpus
    rw [List.length_map]
    have h1 : ∀ (m : Nat) (l : List (ℝ × String)),
        (List.enumFrom m l).length = l.length := by
      intro m l
      rw [← List.length_map _ Prod.snd, List.enumFrom_map_snd]
    rw [h1]
    exact List.length_take_le n _

/-- The scorer's fold, written as a sum over the query terms. -/
lemma bm25_score_eq_sum (st : BM25State) (q : List String) (i : Nat) :
    _bm25_score st q i =
      (q.map (fun t =>
        if (st.freqs.getD i (fun _ => 0)) t = 0 then 0
        else
          idfVal st.doc_ids.length (st.freqs.countP (fun d => d t != 0)) *
            ((((st.freqs.getD i (fun _ => 0)) t : ℝ) * (_k1 + 1)) /
              (((st.freqs.getD i (fun _ => 0)) t : ℝ) +
                _k1 * (1 - _b + _b * ((st.doc_lengths.getD i 0 : ℕ) : ℝ) /
                  (st.avgdl : ℝ)))))).sum := by
  unfold _bm25_score
  rw [foldl_skip_add_eq_sum
    (fun t => (st.freqs.getD i (fun _ => 0)) t = 0)
    (fun t =>
      idfVal st.doc_ids.length (st.freqs.countP (fun d => d t != 0)) *
        ((((st.freqs.getD i (fun _ => 0)) t : ℝ) * (_k1 + 1)) /
          (((st.freqs.getD i (fun _ => 0)) t : ℝ) +
            _k1 * (1 - _b + _b * (st.doc_lengths.getD i 0 : ℝ) /
              (st.avgdl : ℝ)))))]
  rw [zero_add]

/-- A BM25 score is nonnegative whenever the state's average document
length is nonnegative and it has no more frequency tables than document
ids (both hold for every built state). -/
lemma bm25_score_nonneg (st : BM25State) (q : List String) (i : Nat)
    (h1 : 0 ≤ st.avgdl) (h2 : st.freqs.length ≤ st.doc_ids.length) :
    0 ≤ _bm25_score st q i := by
  rw [bm25_score_eq_sum]
  apply List.sum_nonneg
  intro x hx
  rcases List.mem_map.mp hx with ⟨t, _, rfl⟩
  by_cases hf : (st.freqs.getD i (fun _ => 0)) t = 0
  · rw [if_pos hf]
  · rw [if_neg hf]
    have hidf : 0 < idfVal st.doc_ids.length
        (st.freqs.countP (fun d => d t != 0)) :=
      idfVal_pos (le_trans (List.countP_le_length _) h2)
    apply mul_nonneg (le_of_lt hidf)
    apply div_nonneg
    · exact mul_nonneg (Nat.cast_nonneg _) (by norm_num [_k1])
    · have hX : (0 : ℝ) ≤
          (0.75 : ℝ) * ((st.doc_lengths.getD i 0 : ℕ) : ℝ) /
            (st.avgdl : ℝ) :=
        div_nonneg (mul_nonneg (by norm_num) (Nat.cast_nonneg _))
          (by exact_mod_cast h1)
      have hf1 : (1 : ℝ) ≤ (((st.freqs.getD i (fun _ => 0)) t : ℕ) : ℝ) := by
        exact_mod_cast Nat.one_le_iff_ne_zero.mpr hf
      simp only [_k1, _b]
      linarith [hX, hf1]

/-- A freshly built state has nonnegative average document length. -/
lemma build_avgdl_nonneg (corpus : List (String × Document))
    (st : BM25State) (h : st.ready = false) :
    0 ≤ (_build_bm25_index corpus st).avgdl := by
  unfold _build_bm25_index
  rw [if_neg (by rw [h]; exact Bool.false_ne_true)]
  apply div_nonneg
  · apply List.sum_nonneg
    intro x hx
    rcases List.mem_map.mp hx with ⟨e, _, rfl⟩
    exact Nat.cast_nonneg _
  · exact_mod_cast Nat.zero_le _

/-- A freshly built state has as many frequency tables as document
ids. -/
lemma build_lengths_eq (corpus : List (String × Document))
    (st : BM25State) (h : st.ready = false) :
    (_build_bm25_index corpus st).freqs.length ≤
      (_build_bm25_index corpus st).doc_ids.length := by
  unfold _build_bm25_index
  rw [if_neg (by rw [h]; exact Bool.false_ne_true)]
  simp

/-- The boost of a positive score is positive. -/
lemma boostScore_pos {query_terms title_words : List String} {base : ℝ}
    (h : 0 < base) : 0 < boostScore query_terms title_words base := by
  unfold boostScore
  split
  · nlinarith
  · exact h

/-- Claim C2: scores computed against a built index are nonnegative, and
every Result Record returned by search carries a strictly positive
score (documents scoring `≤ 0` are filtered out before ranking). -/
theorem claim_score_nonneg_results_positive :
    (∀ (corpus : List (String × Document)) (st : BM25State),
      st.ready = false → ∀ (q : List String) (i : Nat),
        0 ≤ _bm25_score (_build_bm25_index corpus st) q i) ∧
    (∀ (query : String) (corpus : List (String × Document))
      (search_id : Nat) (st : BM25State) (n : Nat)
      (r : ResultRecord), r ∈ search_in_corpus query corpus search_id st n →
        0 < r.ranking) := by
  constructor
  · intro corpus st h q i
    exact bm25_score_nonneg _ q i (build_avgdl_nonneg corpus st h)
      (build_lengths_eq corpus st h)
  · intro query corpus search_id st n r hr
    unfold search_in_corpus at hr
    rcases List.mem_map.mp hr with ⟨p, hp, rfl⟩
    show 0 < p.2.1
    have hp2 := List.mem_map_of_mem Prod.snd hp
    rw [List.enumFrom_map_snd] at hp2
    have hp3 := List.mem_of_mem_take hp2
    rw [(List.mergeSort_perm _ _).mem_iff] at hp3
    rcases List.mem_filterMap.mp hp3 with ⟨a, _, hfa⟩
    dsimp only at hfa
    by_cases hb : _bm25_score
        (_build_bm25_index corpus st)
        (preprocess_text (expandQuery query)) a.1 ≤ 0
    · rw [if_pos hb] at hfa
      exact absurd hfa (Option.noConfusion)
    · rw [if_neg hb] at hfa
      push_neg at hb
      have := (Option.some.injEq _ _).mp hfa
      have h1 : p.2.1 = boostScore (preprocess_text (expandQuery query))
          (preprocess_text
            (orEmpty ((corpus.lookup a.2).getD emptyDoc).title))
          (_bm25_score (_build_bm25_index corpus st)
            (preprocess_text (expandQuery query)) a.1) := by
        rw [← this]
      rw [h1]
      exact boostScore_pos hb

/-- The ids of a freshly built state are the corpus keys. -/
lemma build_doc_ids_eq (corpus : List (String × Document)) (st : BM25State)
    (h : st.ready = false) :
    (_build_bm25_index corpus st).doc_ids = corpus.map (fun p => p.1) := by
  unfold _build_bm25_index
  rw [if_neg (by rw [h]; exact Bool.false_ne_true)]
  simp only [List.map_map, List.length_map]
  rfl

/-- The frequency tables of a freshly built state. -/
lemma build_freqs_eq (corpus : List (String × Document)) (st : BM25State)
    (h : st.ready = false) :
    (_build_bm25_index corpus st).freqs =
      corpus.map (fun p => buildFreq (docTokens p.2)) := by
  unfold _build_bm25_index
  rw [if_neg (by rw [h]; exact Bool.false_ne_true)]
  simp only [List.map_map, List.length_map]
  rfl

/-- The document lengths of a freshly built state. -/
lemma build_doc_lengths_eq (corpus : List (String × Document))
    (st : BM25State) (h : st.ready = false) :
    (_build_bm25_index corpus st).doc_lengths =
      corpus.map (fun p => (docTokens p.2).length) := by
  unfold _build_bm25_index
  rw [if_neg (by rw [h]; exact Bool.false_ne_true)]
  simp only [List.map_map, List.length_map]
  rfl

/-- The average document length of a freshly built state. -/
lemma build_avgdl_eq (corpus : List (String × Document)) (st : BM25State)
    (h : st.ready = false) :
    (_build_bm25_index corpus st).avgdl =
      ((corpus.map (fun p => ((docTokens p.2).length : ℚ))).sum) /
        ((max corpus.length 1 : ℕ) : ℚ) := by
  unfold _build_bm25_index
  rw [if_neg (by rw [h]; exact Bool.false_ne_true)]
  simp only [List.map_map, List.length_map]
  rfl

lemma gown_avgdl : (_build_bm25_index gownCorpus initialState).avgdl = 1 := by
  rw [build_avgdl_eq _ _ rfl]
  norm_num [gownCorpus, (by decide : (docTokens gownDoc).length = 1)]

lemma gown_base_pos : 0 < gownBase := by
  have h1 : ((_build_bm25_index gownCorpus initialState).freqs.getD 0
      (fun _ => 0)) "gown" = 1 := by decide
  have h2 : (_build_bm25_index gownCorpus initialState).freqs.countP
      (fun d => d "gown" != 0) = 1 := by decide
  have h3 : (_build_bm25_index gownCorpus initialState).doc_ids.length = 1 :=
    by decide
  have h4 : (_build_bm25_index gownCorpus initialState).doc_lengths.getD 0 0
      = 1 := by decide
  unfold gownBase _bm25_score
  simp only [List.foldl_cons, List.foldl_nil]
  rw [if_neg (by decide), zero_add, h1, h2, h3, h4, gown_avgdl]
  apply mul_pos (idfVal_pos (le_refl 1))
  norm_num [_k1, _b]

lemma gown_search_eval :
    search_in_corpus "gown" gownCorpus 7 initialState 5 = [gownRec] := by
  simp only [search_in_corpus]
  rw [(by decide : preprocess_text (expandQuery "gown") = ["gown"])]
  rw [(by decide :
    (_build_bm25_index gownCorpus initialState).doc_ids = ["P1"])]
  rw [(by decide : (["P1"] : List String).enum = [((0:ℕ), "P1")])]
  rw [List.filterMap_cons]
  dsimp only
  rw [show _bm25_score (_build_bm25_index gownCorpus initialState) ["gown"] 0
    = gownBase from rfl]
  rw [if_neg (not_le.mpr gown_base_pos)]
  dsimp only
  rw [(by decide : gownCorpus.lookup "P1" = some gownDoc)]
  simp only [Option.getD_some]
  rw [(by decide : preprocess_text (orEmpty gownDoc.title) = ["gown"])]
  rw [show boostScore ["gown"] ["gown"] gownBase = gownBase * 1.05 by
    unfold boostScore
    rw [if_pos (by decide)]]
  rw [List.filterMap_nil, List.mergeSort_singleton]
  rw [show List.take 5 [(gownBase * 1.05, "P1")] = [(gownBase * 1.05, "P1")]
    from rfl]
  rw [show List.enumFrom 1 [(gownBase * 1.05, "P1")] =
    [((1:ℕ), (gownBase * 1.05, "P1"))] from rfl]
  simp only [List.map_cons, List.map_nil]
  rfl

/-- Claim C5: if the built index has zero average document length then
every document's frequency table is empty, so the scorer's division by
`avgdl` is never reached and every score is 0; and search over the empty
corpus returns the empty list without failure. -/
theorem claim_zero_avgdl_safe :
    (∀ (corpus : List (String × Document)) (st : BM25State),
      st.ready = false → (_build_bm25_index corpus st).avgdl = 0 →
      ∀ (q : List String) (i : Nat),
        _bm25_score (_build_bm25_index corpus st) q i = 0) ∧
    (∀ (query : String) (search_id n : Nat),
      search_in_corpus query [] search_id initialState n = []) := by
  constructor
  · intro corpus st h havg q i
    rw [build_avgdl_eq _ _ h] at havg
    have hden : (((max corpus.length 1 : ℕ)) : ℚ) ≠ 0 := by
      have h1 : 1 ≤ max corpus.length 1 := le_max_right _ _
      exact_mod_cast Nat.pos_iff_ne_zero.mp h1
    have hsum : (corpus.map (fun p => ((docTokens p.2).length : ℚ))).sum
        = 0 := by
      rcases div_eq_zero_iff.mp havg with h0 | h0
      · exact h0
      · exact absurd h0 hden
    have hmap : corpus.map (fun p => ((docTokens p.2).length : ℚ)) =
        (corpus.map (fun p => (docTokens p.2).length)).map
          (fun n : ℕ => (n : ℚ)) := by
      rw [List.map_map]
      rfl
    have hnat : (corpus.map (fun p => (docTokens p.2).length)).sum = 0 := by
      have h2 := hsum
      rw [hmap, ← Nat.cast_list_sum] at h2
      exact_mod_cast h2
    have hempty : ∀ p ∈ corpus, docTokens p.2 = [] := by
      intro p hp
      have hlen : (docTokens p.2).length = 0 :=
        List.sum_eq_zero_iff.mp hnat _ (List.mem_map_of_mem _ hp)
      exact List.length_eq_zero.mp hlen
    have hfreq0 : ∀ t, ((_build_bm25_index corpus st).freqs.getD i
        (fun _ => 0)) t = 0 := by
      intro t
      have hall : ∀ f ∈ (_build_bm25_index corpus st).freqs, f t = 0 := by
        rw [build_freqs_eq _ _ h]
        intro f hf
        rcases List.mem_map.mp hf with ⟨p, hp, rfl⟩
        rw [hempty p hp]
        rfl
      rcases Nat.lt_or_ge i (_build_bm25_index corpus st).freqs.length
        with hi | hi
      · rw [List.getD_eq_getElem?_getD, List.getElem?_eq_getElem hi,
          Option.getD_some]
        exact hall _ (List.getElem_mem hi)
      · rw [List.getD_eq_default _ _ hi]
    rw [bm25_score_eq_sum]
    apply List.sum_eq_zero
    intro x hx
    rcases List.mem_map.mp hx with ⟨t, _, rfl⟩
    rw [if_pos (hfreq0 t)]
  · intro query search_id n
    simp only [search_in_corpus]
    rw [build_doc_ids_eq [] initialState rfl]
    simp only [List.map_nil, List.enum_nil, List.filterMap_nil,
      List.mergeSort_nil, List.take_nil, List.enumFrom_nil]

/-- The stopword-only corpus builds to average document length 0. -/
lemma stop_avgdl : (_build_bm25_index stopCorpus initialState).avgdl = 0 := by
  rw [build_avgdl_eq _ _ rfl]
  norm_num [stopCorpus, (by decide : (docTokens stopDoc).length = 0)]

/-- Witness for Claim C5: a concrete zero-`avgdl` corpus scores 0, and a
concrete search over the empty corpus returns the empty list. -/
theorem claim_zero_avgdl_safe_witness :
    _bm25_score (_build_bm25_index stopCorpus initialState) ["the"] 0 = 0 ∧
      search_in_corpus "anything" [] 3 initialState 10 = [] :=
  ⟨claim_zero_avgdl_safe.1 stopCorpus initialState rfl stop_avgdl ["the"] 0,
   claim_zero_avgdl_safe.2 "anything" 3 10⟩

/-- Witness for Claim C2: a concrete nonnegative score and a concrete
returned record with positive score. -/
theorem claim_score_nonneg_results_positive_witness :
    0 ≤ _bm25_score (_build_bm25_index gownCorpus initialState) ["gown"] 0 ∧
      0 < gownRec.ranking :=
  ⟨claim_score_nonneg_results_positive.1 gownCorpus initialState rfl
      ["gown"] 0,
   claim_score_nonneg_results_positive.2 "gown" gownCorpus 7 initialState 5
     gownRec (by rw [gown_search_eval]; exact List.mem_singleton.mpr rfl)⟩
